import Mathlib

/-!
Shallow embedding of the mailbox-watching engine of `imap_filter_client`
(files `imap_filter_client.py`, `main.py`,
`src/imap_filter_client/imap_filter_client.py`), covering the detection
cycle of `ImapFilterClient.main`, the cursor persistence of
`get_last_checked_uid` and the save in the watch loop, the worker loop
`filter_thread`, and `fetch_email`.

Message identifiers (IMAP UIDs) are natural numbers.  File contents are
lists of character codes.  Python exceptions are modeled with
`Option`/`Except`: `none`/`Except.error` marks an exception escaping the
modeled code.
-/

namespace ImapFilterClient

/-! ## Detection cycle (`ImapFilterClient.main`, watch loop body)

The Python loop body is

  results = sorted(client.search(f"UID {str(self.last_seen_uid)}:*"))
  for uid in results[1:]:
      download_q.put(uid)
  self.last_seen_uid = results[-1]
  ... write str(self.last_seen_uid) to LAST_SEEN_FILENAME ...

The search result list is the input; the cycle sorts it ascending,
enqueues the slice `[1:]`, and takes `results[-1]` as the new cursor.
`results[-1]` on an empty list raises IndexError, modeled as `none`. -/

/-- Model of `sorted(client.search(...))`: the search result sorted ascending. -/
def sortedResults (results : List Nat) : List Nat :=
  List.insertionSort (· ≤ ·) results

/-- Model of the enqueue loop `for uid in results[1:]: download_q.put(uid)`:
the identifiers put on the download queue, in order. -/
def enqueuedOf (results : List Nat) : List Nat :=
  (sortedResults results).drop 1

/-- One detection cycle of `ImapFilterClient.main`: returns the enqueued
identifiers and the new value of `self.last_seen_uid` (`results[-1]`), or
`none` when the search result is empty and `results[-1]` raises IndexError.
Note the enqueue loop finishes before the `results[-1]` access. -/
def detectionCycle (results : List Nat) : Option (List Nat × Nat) :=
  match (sortedResults results).getLast? with
  | none => none
  | some last => some (enqueuedOf results, last)

/-- Chaining of detection cycles: starting from cursor `c`, run one cycle per
search result in the list, threading `self.last_seen_uid` through; `none`
when some cycle raises. -/
def runCycles (c : Nat) : List (List Nat) → Option Nat
  | [] => some c
  | r :: rs =>
    match detectionCycle r with
    | none => none
    | some (_, c2) => runCycles c2 rs

/-- A trace of search results is valid for start cursor `c` when the
search result of each cycle is non-empty and all its identifiers are at
least the cursor held at the start of that cycle (the contract of
searching the inclusive range `[cursor, highest]`). -/
def validTrace (c : Nat) : List (List Nat) → Bool
  | [] => true
  | r :: rs =>
    !r.isEmpty && r.all (fun x => Nat.ble c x) &&
      (match detectionCycle r with
       | none => true
       | some (_, c2) => validTrace c2 rs)

/-- Model of the fresh-start branch of `get_last_checked_uid`:
`uid = client.search(["UID", "*"])[0]`.  Indexing `[0]` into an empty
search result raises IndexError, modeled as `none`. -/
def startupCursor (searchResult : List Nat) : Option Nat :=
  searchResult.head?

/-! ## Cursor store (`LAST_SEEN_FILENAME`)

Saving writes `str(uid)`; loading with catch-up runs
`int(f.readline().strip())`.  A file is a list of character codes. -/

/-- Decimal digits of `n`, most significant first: Python `str(n)` for a
non-negative integer, as character codes. -/
def natToDec (n : Nat) : List Nat :=
  if h : n < 10 then [48 + n]
  else natToDec (n / 10) ++ [48 + n % 10]
decreasing_by
  exact Nat.div_lt_self (by omega) (by omega)

/-- Model of `f.write(str(uid))` overwriting the cursor file: the file
content after the save. -/
def saveLastSeen (uid : Nat) : List Nat :=
  natToDec uid

/-- Python `str.strip` whitespace test (space, tab, newline, return,
vertical tab, form feed). -/
def isPySpace (c : Nat) : Bool :=
  c = 32 || c = 9 || c = 10 || c = 13 || c = 11 || c = 12

/-- Model of `f.readline()` less its trailing newline: the characters of the
first line. -/
def readline (file : List Nat) : List Nat :=
  file.takeWhile (fun c => c ≠ 10)

/-- Python `str.strip()`: drop leading and trailing whitespace. -/
def pyStrip (s : List Nat) : List Nat :=
  (((s.dropWhile isPySpace).reverse).dropWhile isPySpace).reverse

/-- The value of one decimal digit character, `none` on a non-digit. -/
def digitVal (c : Nat) : Option Nat :=
  if 48 ≤ c ∧ c ≤ 57 then some (c - 48) else none

/-- Accumulating decimal parse; `none` once a non-digit appears. -/
def parseDigits (acc : Nat) : List Nat → Option Nat
  | [] => some acc
  | c :: cs =>
    match digitVal c with
    | some d => parseDigits (acc * 10 + d) cs
    | none => none

/-- Python `int(s)` on an already-stripped string of an unsigned decimal:
`none` models ValueError (empty or non-digit input). -/
def pyInt (s : List Nat) : Option Nat :=
  if s.isEmpty then none else parseDigits 0 s

/-- Model of the catch-up branch of `get_last_checked_uid`:
`uid = int(f.readline().strip())` on the content of the cursor file. -/
def loadLastSeen (file : List Nat) : Option Nat :=
  pyInt (pyStrip (readline file))

/-! ## Filter chain (`filter_thread`, inner for loop)

The worker body is

  uid = download_q.get_nowait()
  msg = self.fetch_email(uid)
  for name, filter_c in self.filters.items():
      processed = filter_c.filter(msg)
      if processed:
          break

inside a `try` whose only `except` clause catches `queue.Empty`.  A
message is a natural number; a filter is a function from messages to
`Except Unit Bool`: `Except.ok b` models `filter()` returning `b`,
`Except.error ()` models `filter()` raising an unexpected exception.
`self.filters` is a dict iterated in insertion order, modeled as a list;
filters are identified by their position (registration order). -/

/-- How the for loop over the filters ends. -/
inductive ChainOutcome
  | completed
  | shortCircuit (i : Nat)
  | raised (i : Nat)
deriving DecidableEq, Repr

/-- Result of running the filter loop: the positions of the filters whose
`filter()` was invoked, in invocation order, and how the loop ended.
`completed` means every filter ran and returned `False`; `shortCircuit i`
means filter `i` returned `True` and the loop hit `break`; `raised i` means
filter `i` raised and the exception escaped the loop (nothing in
`filter_thread` catches it). -/
structure ChainResult where
  invoked : List Nat
  outcome : ChainOutcome
deriving DecidableEq, Repr

/-- The filter loop over the remaining filters, the next one having
position `i`. -/
def runChainAux (msg : Nat) : List (Nat → Except Unit Bool) → Nat → ChainResult
  | [], _ => ⟨[], ChainOutcome.completed⟩
  | f :: fs, i =>
    match f msg with
    | Except.error _ => ⟨[i], ChainOutcome.raised i⟩
    | Except.ok true => ⟨[i], ChainOutcome.shortCircuit i⟩
    | Except.ok false =>
      let r := runChainAux msg fs (i + 1)
      ⟨i :: r.invoked, r.outcome⟩

/-- The whole filter loop of `filter_thread` on one fetched message. -/
def runChain (filters : List (Nat → Except Unit Bool)) (msg : Nat) : ChainResult :=
  runChainAux msg filters 0

/-- A filter that returns without raising, as used in the chain. -/
def liftOk (f : Nat → Bool) : Nat → Except Unit Bool :=
  fun msg => Except.ok (f msg)

/-! ## Fetch and worker iteration (`fetch_email`, `filter_thread`) -/

/-- A Python exception escaping the worker body. -/
inductive PyErr
  | unboundLocal
  | filterError (i : Nat)
deriving DecidableEq, Repr

/-- Model of `fetch_email`: `client.fetch([msg_id], ...)` returns a dict
with the message under `msg_id` when it still exists, and an empty dict
when it does not.  The for loop over the dict builds `email_message`; when
the dict is empty the loop body never runs and `return email_message`
raises UnboundLocalError, modeled as `Except.error`.  The mailbox maps an
identifier to the message content it fetches, `none` when the identifier
no longer exists. -/
def fetch_email (mailbox : Nat → Option Nat) (msg_id : Nat) : Except PyErr Nat :=
  match mailbox msg_id with
  | some m => Except.ok m
  | none => Except.error PyErr.unboundLocal

/-- What one pass of the `while True` loop of `filter_thread` does. -/
inductive WorkerOutcome
  | exit
  | wait
  | next (rest : List Nat)
  | die (e : PyErr)
deriving DecidableEq, Repr

/-- One iteration of the `while True` loop of `filter_thread`.  The queue is the
list of queued identifiers (`get_nowait` raises `queue.Empty` exactly when
it is empty); `shutdown` is whether `shutdown_event` is set.  On an empty
queue the `except queue.Empty` clause runs `shutdown_event.wait(2.0)`:
`exit` (break) when the event is set, otherwise `wait` and loop again.
Otherwise the head is dequeued and fetched: an UnboundLocalError from
`fetch_email`, or an exception raised by a filter, is caught by no handler
(`except queue.Empty` does not match) and kills the thread (`die`);
otherwise the loop continues with the rest of the queue (`next`). -/
def workerIteration (mailbox : Nat → Option Nat)
    (filters : List (Nat → Except Unit Bool))
    (q : List Nat) (shutdown : Bool) : WorkerOutcome :=
  match q with
  | [] => if shutdown then WorkerOutcome.exit else WorkerOutcome.wait
  | uid :: rest =>
    match fetch_email mailbox uid with
    | Except.error e => WorkerOutcome.die e
    | Except.ok msg =>
      match (runChain filters msg).outcome with
      | ChainOutcome.raised i => WorkerOutcome.die (PyErr.filterError i)
      | _ => WorkerOutcome.next rest

/-! ## Watch loop control (`ImapFilterClient.main`, outer loop)

The outer loop runs detection cycles inside `try ... except
KeyboardInterrupt: shutdown_event.set(); break`, and after the loop runs
`fetcher_thread.join()`.  Each iteration either completes a cycle (search,
enqueue, cursor update, save, idle) or is cut short by KeyboardInterrupt. -/

/-- Input of one iteration: a completed cycle with its search result, or a
`KeyboardInterrupt`. -/
inductive LoopEvent
  | cycle (results : List Nat)
  | interrupt
deriving DecidableEq, Repr

/-- Observable state of the watch loop: the cursor `self.last_seen_uid`,
everything put on the download queue so far, whether `shutdown_event` was
set, and whether `fetcher_thread.join()` was reached. -/
structure LoopState where
  cursor : Nat
  enqueued : List Nat
  shutdownSet : Bool
  joined : Bool
deriving DecidableEq, Repr

/-- The watch loop over a prefix of iteration inputs.  A cycle event runs
one detection cycle (`none` when it raises IndexError); an interrupt sets
the shutdown event, breaks out of the loop — the remaining events are never
looked at, no further search runs — and falls through to
`fetcher_thread.join()`. -/
def watchLoop (st : LoopState) : List LoopEvent → Option LoopState
  | [] => some st
  | LoopEvent.interrupt :: _ =>
    some { st with shutdownSet := true, joined := true }
  | LoopEvent.cycle r :: rest =>
    match detectionCycle r with
    | none => none
    | some (enq, c2) =>
      watchLoop { st with cursor := c2, enqueued := st.enqueued ++ enq } rest

/-! ## Helper lemmas -/

theorem sortedResults_perm (r : List Nat) : (sortedResults r).Perm r :=
  List.perm_insertionSort _ r

theorem sortedResults_sorted (r : List Nat) :
    (sortedResults r).Sorted (· ≤ ·) :=
  List.sorted_insertionSort _ r

theorem sortedResults_nodup {r : List Nat} (h : r.Nodup) :
    (sortedResults r).Nodup :=
  ((sortedResults_perm r).nodup_iff).mpr h

theorem mem_of_sortedResults {r : List Nat} {x : Nat}
    (h : x ∈ sortedResults r) : x ∈ r :=
  (sortedResults_perm r).mem_iff.mp h

theorem getLast?_mem_of_eq_some {l : List Nat} {m : Nat}
    (h : l.getLast? = some m) : m ∈ l := by
  obtain ⟨hne, he⟩ := List.mem_getLast?_eq_getLast (l := l) (x := m) (by simp [h])
  subst he
  exact List.getLast_mem hne

theorem sortedResults_ne_nil {r : List Nat} (h : r ≠ []) :
    sortedResults r ≠ [] := by
  intro hs
  apply h
  have hlen := (sortedResults_perm r).length_eq
  rw [hs] at hlen
  exact List.length_eq_zero.mp hlen.symm

theorem natToDec_ne_nil (n : Nat) : natToDec n ≠ [] := by
  rw [natToDec]
  split
  · simp
  · simp

theorem natToDec_digits (n : Nat) : ∀ c ∈ natToDec n, 48 ≤ c ∧ c ≤ 57 := by
  induction n using Nat.strong_induction_on with
  | _ n ih =>
    rw [natToDec]
    split
    next h =>
      intro c hc
      simp at hc
      omega
    next h =>
      intro c hc
      rw [List.mem_append] at hc
      rcases hc with hc | hc
      · exact ih (n / 10) (Nat.div_lt_self (by omega) (by omega)) c hc
      · simp at hc
        omega

theorem dropWhile_eq_self_of_all {p : Nat → Bool} {l : List Nat}
    (h : ∀ c ∈ l, p c = false) : l.dropWhile p = l := by
  cases l with
  | nil => rfl
  | cons a l => simp [List.dropWhile_cons, h a (by simp)]

theorem readline_natToDec (n : Nat) : readline (natToDec n) = natToDec n := by
  apply List.takeWhile_eq_self_iff.mpr
  intro c hc
  have hd := natToDec_digits n c hc
  simp
  omega

theorem isPySpace_digit {c : Nat} (h48 : 48 ≤ c) (h57 : c ≤ 57) :
    isPySpace c = false := by
  simp [isPySpace]
  omega

theorem pyStrip_natToDec (n : Nat) : pyStrip (natToDec n) = natToDec n := by
  unfold pyStrip
  rw [dropWhile_eq_self_of_all
    (fun c hc => isPySpace_digit (natToDec_digits n c hc).1 (natToDec_digits n c hc).2)]
  rw [dropWhile_eq_self_of_all (fun c hc => by
    have hm : c ∈ natToDec n := List.mem_reverse.mp hc
    exact isPySpace_digit (natToDec_digits n c hm).1 (natToDec_digits n c hm).2)]
  exact List.reverse_reverse _

theorem parseDigits_append (l1 l2 : List Nat) : ∀ acc,
    parseDigits acc (l1 ++ l2) =
      match parseDigits acc l1 with
      | some v => parseDigits v l2
      | none => none := by
  induction l1 with
  | nil => intro acc; rfl
  | cons c cs ih =>
    intro acc
    simp only [List.cons_append, parseDigits]
    cases hd : digitVal c with
    | some d => exact ih (acc * 10 + d)
    | none => rfl

theorem parseDigits_natToDec (n : Nat) : ∀ acc,
    parseDigits acc (natToDec n) = some (acc * 10 ^ (natToDec n).length + n) := by
  induction n using Nat.strong_induction_on with
  | _ n ih =>
    intro acc
    rw [natToDec]
    split
    next h =>
      have hdv : digitVal (48 + n) = some n := by
        simp [digitVal]
        omega
      simp [parseDigits, hdv]
    next h =>
      rw [parseDigits_append]
      rw [ih (n / 10) (Nat.div_lt_self (by omega) (by omega)) acc]
      have hdv : digitVal (48 + n % 10) = some (n % 10) := by
        have : n % 10 < 10 := Nat.mod_lt _ (by omega)
        simp [digitVal]
        omega
      simp only [parseDigits, hdv]
      have hsum : 10 * (n / 10) + n % 10 = n := Nat.div_add_mod n 10
      rw [List.length_append, List.length_singleton, pow_succ]
      congr 1
      calc (acc * 10 ^ (natToDec (n / 10)).length + n / 10) * 10 + n % 10
          = acc * (10 ^ (natToDec (n / 10)).length * 10) +
              (10 * (n / 10) + n % 10) := by ring
        _ = acc * (10 ^ (natToDec (n / 10)).length * 10) + n := by rw [hsum]

theorem pyInt_natToDec (n : Nat) : pyInt (natToDec n) = some n := by
  unfold pyInt
  rw [if_neg (by simpa using natToDec_ne_nil n)]
  rw [parseDigits_natToDec n 0]
  simp

theorem runChainAux_append_false (msg : Nat)
    (fs₁ fs₂ : List (Nat → Except Unit Bool)) : ∀ i,
    (∀ g ∈ fs₁, g msg = Except.ok false) →
    runChainAux msg (fs₁ ++ fs₂) i =
      ⟨List.range' i fs₁.length ++ (runChainAux msg fs₂ (i + fs₁.length)).invoked,
       (runChainAux msg fs₂ (i + fs₁.length)).outcome⟩ := by
  induction fs₁ with
  | nil =>
    intro i h
    simp [List.range']
  | cons g gs ih =>
    intro i h
    have hg : g msg = Except.ok false := h g (List.mem_cons_self g gs)
    simp only [List.cons_append, runChainAux, hg, List.append_eq]
    rw [ih (i + 1) (fun f hf => h f (List.mem_cons_of_mem g hf))]
    simp only [List.length_cons, List.range'_succ]
    have harith : i + 1 + gs.length = i + (gs.length + 1) := by omega
    rw [harith]
    simp [List.cons_append]

theorem runChainAux_all_false (msg : Nat)
    (fs : List (Nat → Except Unit Bool)) (i : Nat)
    (h : ∀ g ∈ fs, g msg = Except.ok false) :
    runChainAux msg fs i = ⟨List.range' i fs.length, ChainOutcome.completed⟩ := by
  have he := runChainAux_append_false msg fs [] i h
  simpa [runChainAux] using he

/-! ## Claims -/

/-- C7: against a mailbox with no new identifiers beyond the cursor — the
range search returns exactly the cursor value `c` — a detection cycle
enqueues nothing and leaves the cursor at `c`, and re-running the cycle on
the unchanged mailbox does the same: idempotent on queue and cursor. -/
theorem c7_cycle_idempotent (c : Nat) :
    detectionCycle [c] = some ([], c) ∧ runCycles c [[c], [c]] = some c := by
  have h1 : detectionCycle [c] = some ([], c) := rfl
  exact ⟨h1, by simp [runCycles, h1]⟩

/-- C8: saving a MessageId `n` to the cursor file (`f.write(str(uid))`) and
loading it back along the catch-up path (`int(f.readline().strip())`)
returns exactly `n`; in particular a restart after persisting cursor 100
resumes with cursor 100. -/
theorem c8_cursor_roundtrip (n : Nat) :
    loadLastSeen (saveLastSeen n) = some n := by
  unfold loadLastSeen saveLastSeen
  rw [readline_natToDec, pyStrip_natToDec, pyInt_natToDec]

/-- C9: a worker iteration that sees the shutdown event set and an empty
queue exits the loop (`shutdown_event.wait(2.0)` returns true and the loop
breaks, so it never dequeues again); and the watch loop, on a
KeyboardInterrupt, sets the shutdown event and breaks immediately — the
remaining iteration inputs are never examined, so no further search runs,
the cursor and queue are untouched, and control reaches
`fetcher_thread.join()`. -/
theorem c9_shutdown_behaviour (mailbox : Nat → Option Nat)
    (filters : List (Nat → Except Unit Bool)) (st : LoopState)
    (rest : List LoopEvent) :
    workerIteration mailbox filters [] true = WorkerOutcome.exit ∧
    watchLoop st (LoopEvent.interrupt :: rest) =
      some { st with shutdownSet := true, joined := true } :=
  ⟨rfl, rfl⟩

/-- C10: with an empty mailbox both the startup cursor query
(`client.search(["UID", "*"])[0]` in `get_last_checked_uid`) and the
cursor update of the detection cycle (`results[-1]` in `main`) index into an
empty list: the IndexError branch, modeled by `none`, is reached rather
than the empty mailbox being handled. -/
theorem c10_empty_mailbox_undefined :
    startupCursor [] = none ∧ detectionCycle [] = none :=
  ⟨rfl, rfl⟩

/-- C2 counterexample: with a mailbox in which identifier 5 no longer
exists and queue [5, 6], the worker iteration dies with the
UnboundLocalError escaping `fetch_email` instead of skipping 5 and
continuing with 6 — refuting the claim that a vanished message is
recovered locally. -/
theorem c2_counterexample :
    workerIteration (fun _ => none) [] [5, 6] false =
      WorkerOutcome.die PyErr.unboundLocal ∧
    workerIteration (fun _ => none) [] [5, 6] false ≠
      WorkerOutcome.next [6] := by
  constructor
  · rfl
  · decide

/-- C2 (amended): when the fetch returns no entry for the identifier,
`fetch_email` raises UnboundLocalError (the fetch loop body never binds
`email_message`); nothing in `filter_thread` catches it, so the worker
thread dies instead of skipping the message and continuing with the next
queued identifier. -/
theorem c2_fetch_missing_kills_worker (mailbox : Nat → Option Nat)
    (filters : List (Nat → Except Unit Bool)) (uid : Nat) (rest : List Nat)
    (sd : Bool) (h : mailbox uid = none) :
    fetch_email mailbox uid = Except.error PyErr.unboundLocal ∧
    workerIteration mailbox filters (uid :: rest) sd =
      WorkerOutcome.die PyErr.unboundLocal := by
  have hf : fetch_email mailbox uid = Except.error PyErr.unboundLocal := by
    unfold fetch_email
    rw [h]
  exact ⟨hf, by simp [workerIteration, hf]⟩

/-- C2 witness: the amended statement evaluated at the concrete mailbox
with no messages, queue head 5 and tail [6]. -/
theorem c2_fetch_missing_kills_worker_witness :
    fetch_email (fun _ => none) 5 = Except.error PyErr.unboundLocal ∧
    workerIteration (fun _ => none) [] [5, 6] false =
      WorkerOutcome.die PyErr.unboundLocal :=
  c2_fetch_missing_kills_worker (fun _ => none) [] 5 [6] false rfl

/-- C1 counterexample: a chain of two filters where filter 0 raises and
filter 1 is well-behaved.  The chain invokes only filter 0, the exception
propagates (`raised 0`), filter 1 is never invoked, and the worker
iteration dies — refuting the claim that the chain catches the failure,
treats it as false and still runs every subsequent filter. -/
theorem c1_counterexample :
    runChain [fun _ => Except.error (), fun _ => Except.ok false] 7 =
      ⟨[0], ChainOutcome.raised 0⟩ ∧
    1 ∉ (runChain [fun _ => Except.error (), fun _ => Except.ok false] 7).invoked ∧
    workerIteration (fun _ => some 7)
      [fun _ => Except.error (), fun _ => Except.ok false] [3] false =
      WorkerOutcome.die (PyErr.filterError 0) := by
  refine ⟨rfl, ?_, rfl⟩
  decide

/-- C1 (amended): when a filter raises an unexpected internal failure, the
chain does not catch it: the raising filter is the last one invoked, no
subsequent filter runs on the message, and the exception escapes
the try block of `filter_thread` (whose only handler is for `queue.Empty`), killing
the worker thread. -/
theorem c1_filter_error_propagates (fs₁ fs₂ : List (Nat → Except Unit Bool))
    (f : Nat → Except Unit Bool) (mailbox : Nat → Option Nat)
    (uid msg : Nat) (rest : List Nat) (sd : Bool)
    (h1 : ∀ g ∈ fs₁, g msg = Except.ok false) (h2 : f msg = Except.error ())
    (hm : mailbox uid = some msg) :
    runChain (fs₁ ++ f :: fs₂) msg =
      ⟨List.range (fs₁.length + 1), ChainOutcome.raised fs₁.length⟩ ∧
    workerIteration mailbox (fs₁ ++ f :: fs₂) (uid :: rest) sd =
      WorkerOutcome.die (PyErr.filterError fs₁.length) := by
  have hchain : runChain (fs₁ ++ f :: fs₂) msg =
      ⟨List.range (fs₁.length + 1), ChainOutcome.raised fs₁.length⟩ := by
    unfold runChain
    rw [runChainAux_append_false msg fs₁ (f :: fs₂) 0 h1]
    simp only [runChainAux, h2, List.range_eq_range']
    simp [List.range'_concat]
  have hf : fetch_email mailbox uid = Except.ok msg := by
    unfold fetch_email
    rw [hm]
  exact ⟨hchain, by simp [workerIteration, hf, hchain]⟩

/-- C1 witness: the amended statement at the one-filter chain whose filter
raises, mailbox serving message 7 for every identifier, queue head 3. -/
theorem c1_filter_error_propagates_witness :
    runChain [fun _ => Except.error ()] 7 =
      ⟨List.range 1, ChainOutcome.raised 0⟩ ∧
    workerIteration (fun _ => some 7) [fun _ => Except.error ()] [3] false =
      WorkerOutcome.die (PyErr.filterError 0) :=
  c1_filter_error_propagates [] [] (fun _ => Except.error ()) (fun _ => some 7)
    3 7 [] false (by simp) rfl rfl

/-- C4: across any sequence of detection cycles in which every search
result is non-empty and contains only identifiers at least the cursor held
at the start of that cycle, the cursor value is monotonically
non-decreasing: the final persisted cursor is at least the initial one. -/
theorem c4_cursor_monotone (c : Nat) (rs : List (List Nat)) (c2 : Nat)
    (hv : validTrace c rs = true) (hr : runCycles c rs = some c2) :
    c ≤ c2 := by
  induction rs generalizing c with
  | nil =>
    simp [runCycles] at hr
    omega
  | cons r rest ih =>
    unfold runCycles at hr
    unfold validTrace at hv
    cases hd : detectionCycle r with
    | none =>
      rw [hd] at hr
      cases hr
    | some p =>
      obtain ⟨enq, m⟩ := p
      rw [hd] at hr hv
      simp only [Bool.and_eq_true, List.all_eq_true] at hv
      obtain ⟨⟨hne, hall⟩, hrest⟩ := hv
      have hm : m ∈ r := by
        unfold detectionCycle at hd
        cases hg : (sortedResults r).getLast? with
        | none =>
          rw [hg] at hd
          cases hd
        | some last =>
          rw [hg] at hd
          have hml : m = last := by
            injection hd with hd2
            injection hd2 with hd3 hd4
            exact hd4.symm
          exact mem_of_sortedResults (hml ▸ getLast?_mem_of_eq_some hg)
      have hcm : c ≤ m := Nat.le_of_ble_eq_true (hall m hm)
      exact Nat.le_trans hcm (ih m hrest hr)

/-- C4 witness: the monotonicity theorem at start cursor 5 and the
two-cycle trace with search results [5, 6] then [6, 8, 7], ending at
cursor 8. -/
theorem c4_cursor_monotone_witness :
    validTrace 5 [[5, 6], [6, 8, 7]] = true ∧
    runCycles 5 [[5, 6], [6, 8, 7]] = some 8 ∧ 5 ≤ 8 :=
  ⟨by decide, by decide, c4_cursor_monotone 5 [[5, 6], [6, 8, 7]] 8
    (by decide) (by decide)⟩

/-- C5: in a detection cycle starting at cursor `c` whose search result is
duplicate-free and contains only identifiers at least `c` (the contract of
searching the inclusive range from `c`), every identifier put on the
download queue is strictly greater than `c`, and no identifier is enqueued
twice in the cycle. -/
theorem c5_enqueued_above_cursor (c : Nat) (results : List Nat)
    (hnd : results.Nodup) (hge : ∀ x ∈ results, c ≤ x) :
    (∀ x ∈ enqueuedOf results, c < x) ∧ (enqueuedOf results).Nodup := by
  have hsnd : (sortedResults results).Nodup := sortedResults_nodup hnd
  have hsort := sortedResults_sorted results
  unfold enqueuedOf
  cases hs : sortedResults results with
  | nil => simp
  | cons a t =>
    rw [hs] at hsnd hsort
    have hdrop : List.drop 1 (a :: t) = t := rfl
    rw [hdrop]
    have ham : a ∈ results := mem_of_sortedResults (by rw [hs]; exact List.mem_cons_self a t)
    have hca : c ≤ a := hge a ham
    constructor
    · intro x hx
      have hax : a ≤ x := List.rel_of_sorted_cons hsort x hx
      have hxm : x ∈ results := mem_of_sortedResults (by
        rw [hs]
        exact List.mem_cons_of_mem a hx)
      have hcx : c ≤ x := hge x hxm
      rcases Nat.lt_or_ge c x with hlt | hge2
      · exact hlt
      · exfalso
        have hax2 : a = x := by omega
        exact (List.nodup_cons.mp hsnd).1 (hax2 ▸ hx)
    · exact (List.nodup_cons.mp hsnd).2

/-- C5 witness: the theorem at cursor 5 and search result [5, 7, 6]; the
enqueued identifier 6 is strictly above the cursor. -/
theorem c5_enqueued_above_cursor_witness :
    6 ∈ enqueuedOf [5, 7, 6] ∧ 5 < 6 :=
  ⟨by decide, (c5_enqueued_above_cursor 5 [5, 7, 6] (by decide)
    (by decide)).1 6 (by decide)⟩

/-- C6: filters run in registration order; if the filter at position `k` is
the first to return true, exactly the filters at positions 0..k are
invoked and the loop breaks (`shortCircuit k`), so no later filter ever
sees the message; if every filter returns false, every filter is invoked
and the loop completes with the message untouched. -/
theorem c6_chain_short_circuit (fs : List (Nat → Bool)) (msg : Nat) :
    (∀ k, (hk : k < fs.length) → (fs.get ⟨k, hk⟩) msg = true →
      (∀ g ∈ fs.take k, g msg = false) →
      runChain (fs.map liftOk) msg =
        ⟨List.range (k + 1), ChainOutcome.shortCircuit k⟩) ∧
    ((∀ g ∈ fs, g msg = false) →
      runChain (fs.map liftOk) msg =
        ⟨List.range fs.length, ChainOutcome.completed⟩) := by
  constructor
  · intro k hk htrue hbefore
    have hk2 : k < (fs.map liftOk).length := by simpa using hk
    have hdec : fs.map liftOk =
        (fs.take k).map liftOk ++
          liftOk (fs.get ⟨k, hk⟩) :: (fs.drop (k + 1)).map liftOk := by
      conv_lhs => rw [← List.take_append_drop k (fs.map liftOk)]
      rw [List.drop_eq_getElem_cons hk2]
      simp [List.map_take, List.map_drop, List.getElem_map, List.get_eq_getElem]
    rw [hdec]
    unfold runChain
    rw [runChainAux_append_false msg _ _ 0 (by
      intro g hg
      obtain ⟨g0, hg0, hge⟩ := List.mem_map.mp hg
      rw [← hge]
      simp [liftOk, hbefore g0 hg0])]
    have hlen : ((fs.take k).map liftOk).length = k := by
      simp [List.length_take]
      omega
    simp only [runChainAux, liftOk, htrue, hlen, Nat.zero_add]
    rw [List.range_eq_range']
    simp [List.range'_concat]
  · intro hall
    unfold runChain
    rw [runChainAux_all_false msg _ 0 (by
      intro g hg
      obtain ⟨g0, hg0, hge⟩ := List.mem_map.mp hg
      rw [← hge]
      simp [liftOk, hall g0 hg0])]
    rw [List.range_eq_range']
    simp

/-- C6 witness: the chain [A, B, C] with A and C constantly false and B
constantly true invokes exactly A and B and short-circuits at B. -/
theorem c6_chain_short_circuit_witness :
    runChain ([fun _ => false, fun _ => true, fun _ => false].map liftOk) 0 =
      ⟨List.range 2, ChainOutcome.shortCircuit 1⟩ :=
  (c6_chain_short_circuit [fun _ => false, fun _ => true, fun _ => false] 0).1
    1 (by decide) rfl (by
      intro g hg
      simp at hg
      subst hg
      rfl)

/-- C3: at cursor 5 with search result {6, 7} (the message with UID 5 was
removed from the mailbox between cycles), the cycle enqueues only [7]: the
slice `results[1:]` removed the identifier 6, which is not the cursor
value, contradicting the claim that exactly the identifier equal to the
cursor is removed and the code comment that the slice drops the
already-seen identifier. -/
theorem c3_slice_drops_fresh_id :
    detectionCycle [6, 7] = some ([7], 7) ∧ enqueuedOf [6, 7] ≠ [6, 7] := by
  constructor
  · rfl
  · decide

end ImapFilterClient
